import Mathlib

/-!
Verification development for the DRLX configuration layer
(`src/drlx/data/configs.py`).

The Python values that flow through the configuration code (YAML scalars and
nested dictionaries) are embedded as the inductive type `PyVal`; Python
dictionaries are association lists in insertion order, matching the ordered
semantics of `dict` iteration and item assignment.  Exceptions are embedded as
the `PyErr` type and fallible code returns `Except PyErr _`.  Code that
mutates state in place (the `merge` engine, and `DRLXConfig.update`, whose
`to_dict` hands the sub-config `__dict__` mappings to `merge` by reference) is
embedded by explicit state passing: `DRLXConfig.update` returns the call
outcome together with the state of the base tree after the call.
-/

inductive PyVal where
  | none
  | bool (b : Bool)
  | int (n : Int)
  | float (q : Rat)
  | str (s : String)
  | dict (d : List (String × PyVal))

/-- A Python `dict` with string keys, as an insertion-ordered association
list.  Well-formed Python dictionaries never hold duplicate keys; lookups
return the first occurrence, and assignment updates the first occurrence in
place (keeping its position) or appends a fresh key at the end, exactly as
Python item assignment does. -/
abbrev Dict := List (String × PyVal)

/-- The exceptions raised by the configuration code. -/
inductive PyErr where
  | typeError (msg : String)
  | keyError (key : String)
  | attributeError (msg : String)
  | valueError (msg : String)
  | exception (msg : String)
deriving DecidableEq

/-- Dictionary lookup: first entry with the given key (`d[k]` / `d.get(k)`). -/
def alGet : List (String × PyVal) → String → Option PyVal
  | [], _ => Option.none
  | (k, v) :: rest, key => if k = key then some v else alGet rest key

/-- Dictionary item assignment `d[k] = v`: overwrite the first occurrence in
place, or append the key at the end when it is new. -/
def alSet : List (String × PyVal) → String → PyVal → List (String × PyVal)
  | [], key, v => [(key, v)]
  | (k, w) :: rest, key, v =>
    if k = key then (k, v) :: rest else (k, w) :: alSet rest key v

/-- Key membership `k in d`. -/
def alHas : List (String × PyVal) → String → Bool
  | [], _ => false
  | (k, _) :: rest, key => if k = key then true else alHas rest key

/-- The keys of a dictionary, in order. -/
def keysOf (d : Dict) : List String := d.map Prod.fst

def PyVal.isDictB : PyVal → Bool
  | .dict _ => true
  | _ => false

/-- Python `str.lower()` on one character (ASCII, which covers every name the
configuration code handles). -/
def pyLowerChar (c : Char) : Char :=
  if 65 ≤ c.toNat ∧ c.toNat ≤ 90 then Char.ofNat (c.toNat + 32) else c

/-- Python `str.lower()`. -/
def pyLower (s : String) : String := ⟨s.data.map pyLowerChar⟩

/-- Python `needle in hay` for strings: substring containment. -/
def strContainsSub (hay needle : String) : Bool :=
  (List.range (hay.data.length + 1)).any fun i =>
    needle.data.isPrefixOf (hay.data.drop i)

/-- Python `k in u` where `u` is an arbitrary value: key membership for a
dict, substring containment for a str, `TypeError` otherwise. -/
def pyContains (u : PyVal) (k : String) : Except PyErr Bool :=
  match u with
  | .dict d => .ok (alHas d k)
  | .str s => .ok (strContainsSub s k)
  | _ => .error (.typeError "argument of type is not iterable")

/-- Python subscript `u[k]` with a string key: dictionary lookup (raising
`KeyError` when the key is absent), `TypeError` on any non-dict value. -/
def pyGetItem (u : PyVal) (k : String) : Except PyErr PyVal :=
  match u with
  | .dict d =>
    match alGet d k with
    | some v => .ok v
    | Option.none => .error (.keyError k)
  | _ => .error (.typeError "indices must be integers")

/-! ## Method registry

`configs.py` keeps a module-level registry `_METHODS` from lowercase names to
method-config classes.  In the source file the only registration is the bare
decorator `@register_method` on `MethodConfig` itself (`DDPOConfig` carries no
decorator), so the registry maps `"methodconfig"` to the `MethodConfig`
class.  Class objects that can be registered are embedded as `MethodCls`. -/

inductive MethodCls where
  | MethodConfigCls
deriving DecidableEq

/-- The `__name__` attribute of a registrable class object. -/
def clsDunderName : MethodCls → String
  | .MethodConfigCls => "MethodConfig"

abbrev Registry := List (String × MethodCls)

def regSet : Registry → String → MethodCls → Registry
  | [], key, c => [(key, c)]
  | (k, w) :: rest, key, c =>
    if k = key then (k, c) :: rest else (k, w) :: regSet rest key c

def regGet : Registry → String → Option MethodCls
  | [], _ => Option.none
  | (k, c) :: rest, key => if k = key then some c else regGet rest key

/-- `register_class(cls, name)`: store `_METHODS[name] = cls`.  (The
`setattr` on the module object is not observable through the registry and is
not modelled.) -/
def register_class (reg : Registry) (cls : MethodCls) (n : String) : Registry :=
  regSet reg n cls

/-- `register_method(name)` used with an explicit string name: the name is
lowercased and the returned decorator registers the class under it. -/
def register_method_str (reg : Registry) (n : String) (cls : MethodCls) : Registry :=
  register_class reg cls (pyLower n)

/-- `register_method` used as a bare decorator: the name is derived from the
class's own `__name__`, lowercased. -/
def register_method_cls (reg : Registry) (cls : MethodCls) : Registry :=
  register_class reg cls (pyLower (clsDunderName cls))

/-- The registry as populated at module import: only `MethodConfig` is
registered (via the bare `@register_method` decorator). -/
def _METHODS : Registry := register_method_cls [] .MethodConfigCls

/-- `get_method(name)`: lowercase the name and look it up; the value reaching
it at runtime is `config["method"]["name"]`, so a non-string raises
`AttributeError` at `name.lower()`.  On a miss the source raises a bare
`Exception` with a fixed message. -/
def get_method (nameVal : PyVal) : Except PyErr MethodCls :=
  match nameVal with
  | .str s =>
    match regGet _METHODS (pyLower s) with
    | some c => .ok c
    | Option.none =>
      .error (.exception "Error: Trying to access a method that has not been registered")
  | _ => .error (.attributeError "object has no attribute lower")

/-! ## Config dataclasses

The dataclasses carry no runtime type enforcement (annotations only), so each
field holds an arbitrary `PyVal`.  Field order matches the declaration order
in the source, which is also the `__dict__` insertion order. -/

structure ModelConfig where
  model_path : PyVal
  model_arch_type : PyVal
  peft_config : PyVal

structure OptimizerConfig where
  name : PyVal
  kwargs : PyVal

structure SchedulerConfig where
  name : PyVal
  kwargs : PyVal

structure TrainConfig where
  batch_size : PyVal
  num_epochs : PyVal
  num_samples_per_epoch : PyVal
  grad_clip : PyVal
  checkpoint_interval : PyVal
  checkpoint_path : PyVal
  seed : PyVal

structure LoggingConfig where
  log_with : PyVal
  log_every : PyVal
  run_name : PyVal
  wandb_entity : PyVal
  wandb_project : PyVal

structure RewardModelConfig where
  name : PyVal
  kwargs : PyVal
  model_path : PyVal

structure PerPromptStatTrackerConfig where
  buffer_size : PyVal
  min_count : PyVal

structure MethodConfig where
  name : PyVal

/-- The top-level tree.  `per_prompt_stat_tracker` defaults to `None` in the
dataclass declaration, embedded as an `Option`. -/
structure DRLXConfig where
  model : ModelConfig
  optimizer : OptimizerConfig
  scheduler : SchedulerConfig
  train : TrainConfig
  logging : LoggingConfig
  reward_model : RewardModelConfig
  method : MethodConfig
  per_prompt_stat_tracker : Option PerPromptStatTrackerConfig

/-! `__dict__` views of each sub-config, in field order. -/

def MethodConfig.dunderDict (m : MethodConfig) : Dict := [("name", m.name)]

def ModelConfig.dunderDict (m : ModelConfig) : Dict :=
  [("model_path", m.model_path), ("model_arch_type", m.model_arch_type),
   ("peft_config", m.peft_config)]

def OptimizerConfig.dunderDict (m : OptimizerConfig) : Dict :=
  [("name", m.name), ("kwargs", m.kwargs)]

def SchedulerConfig.dunderDict (m : SchedulerConfig) : Dict :=
  [("name", m.name), ("kwargs", m.kwargs)]

def TrainConfig.dunderDict (m : TrainConfig) : Dict :=
  [("batch_size", m.batch_size), ("num_epochs", m.num_epochs),
   ("num_samples_per_epoch", m.num_samples_per_epoch),
   ("grad_clip", m.grad_clip), ("checkpoint_interval", m.checkpoint_interval),
   ("checkpoint_path", m.checkpoint_path), ("seed", m.seed)]

def LoggingConfig.dunderDict (m : LoggingConfig) : Dict :=
  [("log_with", m.log_with), ("log_every", m.log_every),
   ("run_name", m.run_name), ("wandb_entity", m.wandb_entity),
   ("wandb_project", m.wandb_project)]

def RewardModelConfig.dunderDict (m : RewardModelConfig) : Dict :=
  [("name", m.name), ("kwargs", m.kwargs), ("model_path", m.model_path)]

def PerPromptStatTrackerConfig.dunderDict (m : PerPromptStatTrackerConfig) : Dict :=
  [("buffer_size", m.buffer_size), ("min_count", m.min_count)]

/-- `DRLXConfig.to_dict`: builds a dict literal with one `__dict__` per
subsection, keys in source order (`method` first).  When
`per_prompt_stat_tracker` is `None`, evaluating
`self.per_prompt_stat_tracker.__dict__` raises `AttributeError` before the
dict literal is completed. -/
def DRLXConfig.to_dict (s : DRLXConfig) : Except PyErr Dict :=
  match s.per_prompt_stat_tracker with
  | Option.none => .error (.attributeError "NoneType object has no attribute __dict__")
  | some t =>
    .ok [("method", .dict s.method.dunderDict),
         ("model", .dict s.model.dunderDict),
         ("optimizer", .dict s.optimizer.dunderDict),
         ("scheduler", .dict s.scheduler.dunderDict),
         ("train", .dict s.train.dunderDict),
         ("logging", .dict s.logging.dunderDict),
         ("reward_model", .dict s.reward_model.dunderDict),
         ("per_prompt_stat_tracker", .dict t.dunderDict)]

def staticFromDictMsg : String :=
  "from_dict() missing 1 required positional argument: cfg"

/-- Models the call `C.from_dict(mapping)` for any config class `C` other
than `DRLXConfig` (which overrides it).  `from_dict` is inherited from
`ConfigClass`, where the source declares it `@staticmethod` with the two
required parameters `(cls, cfg)` and body `cls(**cfg)`.  A staticmethod
receives no implicit class argument, so this one-argument call binds
`mapping` to `cls`, leaves `cfg` unbound, and Python raises `TypeError`
before the body is reached — for every argument value.  `α` is the config
type the call is written to produce. -/
def from_dict_one_arg (α : Type) (_mapping : PyVal) : Except PyErr α :=
  .error (.typeError staticFromDictMsg)

/-- `DRLXConfig.from_dict(config)`: the keyword arguments of the `cls(...)`
call are evaluated left to right in source order — `method` first, resolving
`config["method"]["name"]` through the registry and then invoking
`get_method(...).from_dict(config["method"])`, which goes through the
inherited staticmethod (`from_dict_one_arg`); then each remaining subsection
in order. -/
def DRLXConfig.from_dict (config : PyVal) : Except PyErr DRLXConfig := do
  let msec ← pyGetItem config "method"
  let mname ← pyGetItem msec "name"
  let _cls ← get_method mname
  let msec2 ← pyGetItem config "method"
  let meth ← from_dict_one_arg MethodConfig msec2
  let mcfg ← pyGetItem config "model"
  let mdl ← from_dict_one_arg ModelConfig mcfg
  let ocfg ← pyGetItem config "optimizer"
  let opt ← from_dict_one_arg OptimizerConfig ocfg
  let scfg ← pyGetItem config "scheduler"
  let sch ← from_dict_one_arg SchedulerConfig scfg
  let tcfg ← pyGetItem config "train"
  let trn ← from_dict_one_arg TrainConfig tcfg
  let lcfg ← pyGetItem config "logging"
  let lg ← from_dict_one_arg LoggingConfig lcfg
  let rcfg ← pyGetItem config "reward_model"
  let rwm ← from_dict_one_arg RewardModelConfig rcfg
  let pcfg ← pyGetItem config "per_prompt_stat_tracker"
  let pps ← from_dict_one_arg PerPromptStatTrackerConfig pcfg
  pure ⟨mdl, opt, sch, trn, lg, rwm, meth, some pps⟩

/-! ## Dotted-path unflattening (`DRLXConfig.update`, first loop)

`update` first rebuilds its `config` argument into a nested mapping: an entry
whose value is a dict is stored as-is; otherwise the key is split on `"."`
into `*layers, var`, and when `layers` is non-empty the value is written at
that path with `setdefault`-created intermediate dicts.  An entry with a
non-dict value and no `"."` in its key (empty `layers`) is skipped
entirely. -/

/-- Python `str.split(sep)` for a one-character separator, on the character
list: always returns at least one (possibly empty) piece. -/
def splitChar (sep : Char) : List Char → List (List Char)
  | [] => [[]]
  | c :: cs =>
    match splitChar sep cs with
    | h :: t => if c = sep then [] :: h :: t else (c :: h) :: t
    | [] => if c = sep then [[], []] else [[c]]

/-- `name.split(".")`. -/
def pySplitDot (s : String) : List String :=
  (splitChar (Char.ofNat 46) s.data).map fun l => ⟨l⟩

/-- Writes `value` at the nested path `layers ++ [var]` inside `d`, creating
intermediate dicts with `setdefault(layer, {})`.  When an intermediate key
already holds a non-dict value, Python fails on it (`setdefault`/item
assignment on a non-dict), embedded as `TypeError`. -/
def setPath (d : Dict) (layers : List String) (var : String) (value : PyVal) :
    Except PyErr Dict :=
  match layers with
  | [] => .ok (alSet d var value)
  | l :: ls =>
    match alGet d l with
    | some (.dict sub) =>
      match setPath sub ls var value with
      | .ok sub2 => .ok (alSet d l (.dict sub2))
      | .error e => .error e
    | some _ => .error (.typeError "object does not support item assignment")
    | Option.none =>
      match setPath [] ls var value with
      | .ok sub2 => .ok (alSet d l (.dict sub2))
      | .error e => .error e

/-- One iteration of the unflattening loop on entry `(name, value)`. -/
def unflattenStep (acc : Dict) (name0 : String) (value : PyVal) :
    Except PyErr Dict :=
  match value with
  | .dict dv => .ok (alSet acc name0 (.dict dv))
  | v =>
    let parts := pySplitDot name0
    match parts.dropLast with
    | [] => .ok acc
    | l :: ls => setPath acc (l :: ls) (parts.getLastD "") v

/-- The whole unflattening loop, over the entries of `config` in insertion
order. -/
def unflatten : List (String × PyVal) → Dict → Except PyErr Dict
  | [], acc => .ok acc
  | (k, v) :: rest, acc =>
    match unflattenStep acc k v with
    | .ok acc2 => unflatten rest acc2
    | .error e => .error e

/-! ## Merge engine -/

/-- `updated.add(k)` on the Python set, embedded as a duplicate-free list;
only membership is ever observed. -/
def updAdd (acc : List String) (k : String) : List String :=
  if k ∈ acc then acc else acc ++ [k]

/-- Result of a `merge` call: the (mutated) `base` mapping, the state of the
shared `updated` set, and the exception that aborted the iteration, if any.
On an abort the entries already processed keep their merged values — the
mutation has already happened in place. -/
structure MergeOut where
  base : Dict
  touched : List String
  err : Option PyErr

/-- `merge(base, update, updated)`: iterate over `base`'s entries; for a key
also present in `update` (Python `in`, which may itself raise on a non-dict,
non-str `update`) recurse when the base value is a dict — passing the same
`updated` set through, then adding the top-level key — and otherwise
overwrite the base value with `update[k]` and add the key.  Keys absent from
`update` are left as they are. -/
def mergeF : Dict → PyVal → List String → MergeOut
  | [], _, acc => ⟨[], acc, Option.none⟩
  | (k, v) :: rest, u, acc =>
    match pyContains u k with
    | .error e => ⟨(k, v) :: rest, acc, some e⟩
    | .ok mem =>
      if mem then
        match v with
        | .dict sub =>
          match pyGetItem u k with
          | .error e => ⟨(k, .dict sub) :: rest, acc, some e⟩
          | .ok uv =>
            let r := mergeF sub uv acc
            match r.err with
            | some e => ⟨(k, .dict r.base) :: rest, r.touched, some e⟩
            | Option.none =>
              let r2 := mergeF rest u (updAdd r.touched k)
              ⟨(k, .dict r.base) :: r2.base, r2.touched, r2.err⟩
        | _ =>
          match pyGetItem u k with
          | .error e => ⟨(k, v) :: rest, acc, some e⟩
          | .ok uv =>
            let r2 := mergeF rest u (updAdd acc k)
            ⟨(k, uv) :: r2.base, r2.touched, r2.err⟩
      else
        let r2 := mergeF rest u acc
        ⟨(k, v) :: r2.base, r2.touched, r2.err⟩

/-! ## `DRLXConfig.update` -/

/-- The section stored under `k` in the merged mapping.  `to_dict` produces a
dict value for every section and `merge` recurses (rather than overwrites)
exactly when the base value is a dict, so each section of the merged mapping
is still a dict; the default branch is unreachable on `update`'s data. -/
def sectionDict (merged : Dict) (k : String) : Dict :=
  match alGet merged k with
  | some (.dict d) => d
  | _ => []

/-- A field read back from a section mapping.  `merge` never adds or removes
keys, so every declared field name is present; the default is unreachable on
`update`'s data. -/
def fieldVal (d : Dict) (k : String) : PyVal := (alGet d k).getD PyVal.none

/-- The state of the base tree after `merge` ran on the mapping produced by
`to_dict`: `to_dict` stores each sub-config's `__dict__` by reference, and
`merge` mutates those mappings in place, so after the call each sub-config's
fields are exactly the entries of the corresponding merged section. -/
def readBack (t : DRLXConfig) (merged : Dict) : DRLXConfig :=
  { model :=
      { model_path := fieldVal (sectionDict merged "model") "model_path",
        model_arch_type := fieldVal (sectionDict merged "model") "model_arch_type",
        peft_config := fieldVal (sectionDict merged "model") "peft_config" },
    optimizer :=
      { name := fieldVal (sectionDict merged "optimizer") "name",
        kwargs := fieldVal (sectionDict merged "optimizer") "kwargs" },
    scheduler :=
      { name := fieldVal (sectionDict merged "scheduler") "name",
        kwargs := fieldVal (sectionDict merged "scheduler") "kwargs" },
    train :=
      { batch_size := fieldVal (sectionDict merged "train") "batch_size",
        num_epochs := fieldVal (sectionDict merged "train") "num_epochs",
        num_samples_per_epoch := fieldVal (sectionDict merged "train") "num_samples_per_epoch",
        grad_clip := fieldVal (sectionDict merged "train") "grad_clip",
        checkpoint_interval := fieldVal (sectionDict merged "train") "checkpoint_interval",
        checkpoint_path := fieldVal (sectionDict merged "train") "checkpoint_path",
        seed := fieldVal (sectionDict merged "train") "seed" },
    logging :=
      { log_with := fieldVal (sectionDict merged "logging") "log_with",
        log_every := fieldVal (sectionDict merged "logging") "log_every",
        run_name := fieldVal (sectionDict merged "logging") "run_name",
        wandb_entity := fieldVal (sectionDict merged "logging") "wandb_entity",
        wandb_project := fieldVal (sectionDict merged "logging") "wandb_project" },
    reward_model :=
      { name := fieldVal (sectionDict merged "reward_model") "name",
        kwargs := fieldVal (sectionDict merged "reward_model") "kwargs",
        model_path := fieldVal (sectionDict merged "reward_model") "model_path" },
    method := { name := fieldVal (sectionDict merged "method") "name" },
    per_prompt_stat_tracker :=
      match t.per_prompt_stat_tracker with
      | Option.none => Option.none
      | some _ =>
        some { buffer_size := fieldVal (sectionDict merged "per_prompt_stat_tracker") "buffer_size",
               min_count := fieldVal (sectionDict merged "per_prompt_stat_tracker") "min_count" } }

/-- The validation loop after the merge: the first key of the (unflattened)
override mapping, in insertion order, that is missing from the `updated`
set. -/
def firstUntouched : Dict → List String → Option String
  | [], _ => Option.none
  | (k, _) :: rest, touched =>
    if k ∈ touched then firstUntouched rest touched else some k

/-- `DRLXConfig.update(baseconfig, config)` with `baseconfig` an
already-built tree (the source also accepts a raw mapping, in which case the
`to_dict` conversion is skipped; the claims under verification all concern
the tree form).  Steps, in source order: unflatten `config`; convert
`baseconfig` with `to_dict`; run `merge` with a fresh `updated` set; raise
`ValueError` for the first override key never touched; otherwise return
`cls.from_dict(merged)`.

Returned pair: the call outcome, and the state of `baseconfig` after the
call.  `to_dict` exposes the sub-config `__dict__` mappings by reference and
`merge` mutates them in place, so once `merge` has run — whether or not the
call then fails — the tree's fields are those of the merged mapping
(`readBack`). -/
def DRLXConfig.update (baseconfig : DRLXConfig) (config : Dict) :
    Except PyErr DRLXConfig × DRLXConfig :=
  match unflatten config [] with
  | .error e => (.error e, baseconfig)
  | .ok upd =>
    match DRLXConfig.to_dict baseconfig with
    | .error e => (.error e, baseconfig)
    | .ok base =>
      let r := mergeF base (.dict upd) []
      let post := readBack baseconfig r.base
      match r.err with
      | some e => (.error e, post)
      | Option.none =>
        match firstUntouched upd r.touched with
        | some p =>
          (.error (.valueError ("parameter " ++ p ++
            " is not present in the config (typo or a wrong config)")), post)
        | Option.none => (DRLXConfig.from_dict (.dict r.base), post)

/-! ## A concrete valid tree, for concrete evaluations -/

def sampleTree : DRLXConfig :=
  { model := { model_path := .str "CompVis/stable-diffusion-v1-4",
               model_arch_type := .str "LDMUNet",
               peft_config := .dict [] },
    optimizer := { name := .str "adamw", kwargs := .dict [] },
    scheduler := { name := .str "linear", kwargs := .dict [] },
    train := { batch_size := .int 4, num_epochs := .int 50,
               num_samples_per_epoch := .int 128, grad_clip := .float 1,
               checkpoint_interval := .int 10,
               checkpoint_path := .str "checkpoints", seed := .int 0 },
    logging := { log_with := .str "wandb", log_every := .int 10,
                 run_name := .none, wandb_entity := .none,
                 wandb_project := .none },
    reward_model := { name := .str "aesthetic", kwargs := .dict [],
                      model_path := .none },
    method := { name := .str "methodconfig" },
    per_prompt_stat_tracker := some { buffer_size := .int 32, min_count := .int 16 } }

/-- The same tree with the optional tracker left at its `None` default. -/
def sampleTreeNoTracker : DRLXConfig :=
  { sampleTree with per_prompt_stat_tracker := Option.none }

/-- The mapping `sampleTree.to_dict()` produces: one key per subsection in
source order, each holding the subsection's `__dict__`. -/
def sampleRaw : Dict :=
  [("method", .dict [("name", .str "methodconfig")]),
   ("model", .dict [("model_path", .str "CompVis/stable-diffusion-v1-4"),
                    ("model_arch_type", .str "LDMUNet"),
                    ("peft_config", .dict [])]),
   ("optimizer", .dict [("name", .str "adamw"), ("kwargs", .dict [])]),
   ("scheduler", .dict [("name", .str "linear"), ("kwargs", .dict [])]),
   ("train", .dict [("batch_size", .int 4), ("num_epochs", .int 50),
                    ("num_samples_per_epoch", .int 128), ("grad_clip", .float 1),
                    ("checkpoint_interval", .int 10),
                    ("checkpoint_path", .str "checkpoints"), ("seed", .int 0)]),
   ("logging", .dict [("log_with", .str "wandb"), ("log_every", .int 10),
                      ("run_name", .none), ("wandb_entity", .none),
                      ("wandb_project", .none)]),
   ("reward_model", .dict [("name", .str "aesthetic"), ("kwargs", .dict []),
                           ("model_path", .none)]),
   ("per_prompt_stat_tracker", .dict [("buffer_size", .int 32),
                                      ("min_count", .int 16)])]

/-- The same raw mapping with the optional `per_prompt_stat_tracker` key
absent (all seven mandatory subsections present). -/
def sampleRawNoTracker : Dict := sampleRaw.dropLast

/-! ## Helper lemmas -/
theorem subset_updAdd (acc : List String) (k : String) : acc ⊆ updAdd acc k := by
  unfold updAdd
  split
  · exact fun _ h => h
  · exact List.subset_append_left _ _

theorem mem_updAdd (acc : List String) (k : String) : k ∈ updAdd acc k := by
  unfold updAdd
  split
  · assumption
  · simp

theorem mergeF_touched_mono : ∀ b u acc, acc ⊆ (mergeF b u acc).touched := by
  intro b u acc
  induction b, u, acc using mergeF.induct with
  | case1 x acc => simp [mergeF.eq_1]
  | case2 k v rest u acc e h =>
    cases v <;> simp [mergeF.eq_2, mergeF.eq_3, h]
  | case3 k rest u acc d e hg hc =>
    simp [mergeF.eq_2, hc, hg]
  | case4 k rest u acc d uv hg r e herr hc =>
    rename_i ih
    have herr2 : (mergeF d uv acc).err = some e := herr
    simp [mergeF.eq_2, hc, hg, herr2]
    exact ih
  | case5 k rest u acc d uv hg r herr hc ih =>
    rename_i ih2
    have herr2 : (mergeF d uv acc).err = Option.none := herr
    simp [mergeF.eq_2, hc, hg, herr2]
    exact fun x hx => ih2 (subset_updAdd _ _ (ih hx))
  | case6 k v rest u acc e hg hnd hc =>
    cases v <;> simp [mergeF.eq_2, mergeF.eq_3, hc, hg]
  | case7 k v rest u acc uv hg hnd hc ih =>
    cases v <;> simp [mergeF.eq_2, mergeF.eq_3, hc, hg] <;>
      exact fun x hx => ih (subset_updAdd _ _ hx)
  | case8 k v rest u acc mem hc hm ih =>
    have hm2 : mem = false := by
      cases mem
      · rfl
      · exact absurd rfl hm
    subst hm2
    cases v <;> simp [mergeF.eq_2, mergeF.eq_3, hc] <;> exact ih

theorem alGet_cons (k : String) (v : PyVal) (rest : Dict) (kq : String) :
    alGet ((k, v) :: rest) kq = if k = kq then some v else alGet rest kq := rfl

theorem alHas_cons_false {k : String} {v : PyVal} {rest : Dict} {kq : String}
    (h : alHas ((k, v) :: rest) kq = false) : k ≠ kq ∧ alHas rest kq = false := by
  simp only [alHas] at h
  split at h
  · cases h
  · next hne => exact ⟨hne, h⟩

theorem alGet_eq_none_of_alHas_false :
    ∀ {l : Dict} {kq : String}, alHas l kq = false → alGet l kq = Option.none := by
  intro l
  induction l with
  | nil => intro kq _; rfl
  | cons hd tl ih =>
    intro kq h
    obtain ⟨k, v⟩ := hd
    obtain ⟨hne, htl⟩ := alHas_cons_false h
    simp [alGet, hne, ih htl]

theorem mergeF_keys : ∀ b u acc, keysOf (mergeF b u acc).base = keysOf b := by
  intro b u acc
  induction b, u, acc using mergeF.induct with
  | case1 x acc => simp [mergeF.eq_1]
  | case2 k v rest u acc e h =>
    cases v <;> simp [mergeF.eq_2, mergeF.eq_3, h]
  | case3 k rest u acc d e hg hc =>
    simp [mergeF.eq_2, hc, hg]
  | case4 k rest u acc d uv hg r e herr hc =>
    rename_i ih
    have herr2 : (mergeF d uv acc).err = some e := herr
    simp [mergeF.eq_2, hc, hg, herr2, keysOf]
  | case5 k rest u acc d uv hg r herr hc ih =>
    rename_i ih2
    have herr2 : (mergeF d uv acc).err = Option.none := herr
    simp [mergeF.eq_2, hc, hg, herr2, keysOf] at ih2 ⊢
    exact ih2
  | case6 k v rest u acc e hg hnd hc =>
    cases v <;> simp [mergeF.eq_2, mergeF.eq_3, hc, hg]
  | case7 k v rest u acc uv hg hnd hc ih =>
    cases v <;> simp [mergeF.eq_2, mergeF.eq_3, hc, hg, keysOf] at ih ⊢ <;> exact ih
  | case8 k v rest u acc mem hc hm ih =>
    have hm2 : mem = false := by
      cases mem
      · rfl
      · exact absurd rfl hm
    subst hm2
    cases v <;> simp [mergeF.eq_2, mergeF.eq_3, hc, keysOf] at ih ⊢ <;> exact ih

theorem mergeF_not_in_base :
    ∀ b u acc kq, alHas b kq = false →
      alGet (mergeF b u acc).base kq = Option.none := by
  intro b u acc
  induction b, u, acc using mergeF.induct with
  | case1 x acc => intro kq _; simp [mergeF.eq_1, alGet]
  | case2 k v rest u acc e h =>
    intro kq hq
    obtain ⟨hne, htl⟩ := alHas_cons_false hq
    cases v <;>
      simp [mergeF.eq_2, mergeF.eq_3, h, alGet, hne, alGet_eq_none_of_alHas_false htl]
  | case3 k rest u acc d e hg hc =>
    intro kq hq
    obtain ⟨hne, htl⟩ := alHas_cons_false hq
    simp [mergeF.eq_2, hc, hg, alGet, hne, alGet_eq_none_of_alHas_false htl]
  | case4 k rest u acc d uv hg r e herr hc =>
    rename_i ih
    intro kq hq
    obtain ⟨hne, htl⟩ := alHas_cons_false hq
    have herr2 : (mergeF d uv acc).err = some e := herr
    simp [mergeF.eq_2, hc, hg, herr2, alGet, hne, alGet_eq_none_of_alHas_false htl]
  | case5 k rest u acc d uv hg r herr hc ih =>
    rename_i ih2
    intro kq hq
    obtain ⟨hne, htl⟩ := alHas_cons_false hq
    have herr2 : (mergeF d uv acc).err = Option.none := herr
    simp [mergeF.eq_2, hc, hg, herr2, alGet, hne]
    exact ih2 kq htl
  | case6 k v rest u acc e hg hnd hc =>
    intro kq hq
    obtain ⟨hne, htl⟩ := alHas_cons_false hq
    cases v <;>
      simp [mergeF.eq_2, mergeF.eq_3, hc, hg, alGet, hne, alGet_eq_none_of_alHas_false htl]
  | case7 k v rest u acc uv hg hnd hc ih =>
    intro kq hq
    obtain ⟨hne, htl⟩ := alHas_cons_false hq
    cases v <;> simp [mergeF.eq_2, mergeF.eq_3, hc, hg, alGet, hne] <;> exact ih kq htl
  | case8 k v rest u acc mem hc hm ih =>
    intro kq hq
    obtain ⟨hne, htl⟩ := alHas_cons_false hq
    have hm2 : mem = false := by
      cases mem
      · rfl
      · exact absurd rfl hm
    subst hm2
    cases v <;> simp [mergeF.eq_2, mergeF.eq_3, hc, alGet, hne] <;> exact ih kq htl

theorem mergeF_untouched_val :
    ∀ b u acc kq, pyContains u kq = Except.ok false →
      alGet (mergeF b u acc).base kq = alGet b kq := by
  intro b u acc
  induction b, u, acc using mergeF.induct with
  | case1 x acc => intro kq _; simp [mergeF.eq_1]
  | case2 k v rest u acc e h =>
    intro kq hq
    cases v <;> simp [mergeF.eq_2, mergeF.eq_3, h]
  | case3 k rest u acc d e hg hc =>
    intro kq hq
    simp [mergeF.eq_2, hc, hg]
  | case4 k rest u acc d uv hg r e herr hc =>
    rename_i ih
    intro kq hq
    have hne : k ≠ kq := by
      intro hh
      rw [hh, hq] at hc
      cases hc
    have herr2 : (mergeF d uv acc).err = some e := herr
    simp [mergeF.eq_2, hc, hg, herr2, alGet, hne]
  | case5 k rest u acc d uv hg r herr hc ih =>
    rename_i ih2
    intro kq hq
    have hne : k ≠ kq := by
      intro hh
      rw [hh, hq] at hc
      cases hc
    have herr2 : (mergeF d uv acc).err = Option.none := herr
    simp [mergeF.eq_2, hc, hg, herr2, alGet, hne]
    exact ih2 kq hq
  | case6 k v rest u acc e hg hnd hc =>
    intro kq hq
    cases v <;> simp [mergeF.eq_2, mergeF.eq_3, hc, hg]
  | case7 k v rest u acc uv hg hnd hc ih =>
    intro kq hq
    have hne : k ≠ kq := by
      intro hh
      rw [hh, hq] at hc
      cases hc
    cases v <;> simp [mergeF.eq_2, mergeF.eq_3, hc, hg, alGet, hne] <;> exact ih kq hq
  | case8 k v rest u acc mem hc hm ih =>
    intro kq hq
    have hm2 : mem = false := by
      cases mem
      · rfl
      · exact absurd rfl hm
    subst hm2
    by_cases hne : k = kq
    · subst hne
      cases v <;> simp [mergeF.eq_2, mergeF.eq_3, hc, alGet]
    · cases v <;> simp [mergeF.eq_2, mergeF.eq_3, hc, alGet, hne] <;> exact ih kq hq

theorem mergeF_overwrites :
    ∀ b u acc kq v0, alGet b kq = some v0 → v0.isDictB = false →
      pyContains u kq = Except.ok true → (mergeF b u acc).err = Option.none →
      ∃ uv, pyGetItem u kq = Except.ok uv ∧
        alGet (mergeF b u acc).base kq = some uv ∧
        kq ∈ (mergeF b u acc).touched := by
  intro b u acc
  induction b, u, acc using mergeF.induct with
  | case1 x acc => intro kq v0 hget _ _ _; cases hget
  | case2 k v rest u acc e h =>
    intro kq v0 hget hv0 hq herr0
    have hsome : (mergeF ((k, v) :: rest) u acc).err = some e := by
      cases v <;> simp [mergeF.eq_2, mergeF.eq_3, h]
    rw [hsome] at herr0
    cases herr0
  | case3 k rest u acc d e hg hc =>
    intro kq v0 hget hv0 hq herr0
    have hsome : (mergeF ((k, PyVal.dict d) :: rest) u acc).err = some e := by
      simp [mergeF.eq_2, hc, hg]
    rw [hsome] at herr0
    cases herr0
  | case4 k rest u acc d uv hg r e herr hc =>
    rename_i ih
    intro kq v0 hget hv0 hq herr0
    have herr2 : (mergeF d uv acc).err = some e := herr
    have hsome : (mergeF ((k, PyVal.dict d) :: rest) u acc).err = some e := by
      simp [mergeF.eq_2, hc, hg, herr2]
    rw [hsome] at herr0
    cases herr0
  | case5 k rest u acc d uv hg r herr hc ih =>
    rename_i ih2
    intro kq v0 hget hv0 hq herr0
    have herr2 : (mergeF d uv acc).err = Option.none := herr
    have heq : mergeF ((k, PyVal.dict d) :: rest) u acc =
        ⟨(k, PyVal.dict (mergeF d uv acc).base) ::
            (mergeF rest u (updAdd (mergeF d uv acc).touched k)).base,
          (mergeF rest u (updAdd (mergeF d uv acc).touched k)).touched,
          (mergeF rest u (updAdd (mergeF d uv acc).touched k)).err⟩ := by
      simp [mergeF.eq_2, hc, hg, herr2]
    by_cases hne : k = kq
    · subst hne
      rw [alGet_cons, if_pos rfl] at hget
      injection hget with hvv
      subst hvv
      cases hv0
    · rw [alGet_cons, if_neg hne] at hget
      rw [heq] at herr0 ⊢
      simp only [alGet_cons, if_neg hne]
      exact ih2 kq v0 hget hv0 hq herr0
  | case6 k v rest u acc e hg hnd hc =>
    intro kq v0 hget hv0 hq herr0
    have hsome : (mergeF ((k, v) :: rest) u acc).err = some e := by
      cases v <;> simp [mergeF.eq_2, mergeF.eq_3, hc, hg]
    rw [hsome] at herr0
    cases herr0
  | case7 k v rest u acc uv hg hnd hc ih =>
    intro kq v0 hget hv0 hq herr0
    have heq : mergeF ((k, v) :: rest) u acc =
        ⟨(k, uv) :: (mergeF rest u (updAdd acc k)).base,
          (mergeF rest u (updAdd acc k)).touched,
          (mergeF rest u (updAdd acc k)).err⟩ := by
      cases v <;> simp [mergeF.eq_2, mergeF.eq_3, hc, hg]
    by_cases hne : k = kq
    · subst hne
      refine ⟨uv, hg, ?_, ?_⟩
      · rw [heq]
        simp [alGet_cons]
      · rw [heq]
        exact mergeF_touched_mono _ _ _ (mem_updAdd acc k)
    · rw [alGet_cons, if_neg hne] at hget
      rw [heq] at herr0 ⊢
      simp only [alGet_cons, if_neg hne]
      exact ih kq v0 hget hv0 hq herr0
  | case8 k v rest u acc mem hc hm ih =>
    intro kq v0 hget hv0 hq herr0
    have hm2 : mem = false := by
      cases mem
      · rfl
      · exact absurd rfl hm
    subst hm2
    have hne : k ≠ kq := by
      intro hh
      rw [hh, hq] at hc
      cases hc
    have heq : mergeF ((k, v) :: rest) u acc =
        ⟨(k, v) :: (mergeF rest u acc).base,
          (mergeF rest u acc).touched, (mergeF rest u acc).err⟩ := by
      cases v <;> simp [mergeF.eq_2, mergeF.eq_3, hc]
    rw [alGet_cons, if_neg hne] at hget
    rw [heq] at herr0 ⊢
    simp only [alGet_cons, if_neg hne]
    exact ih kq v0 hget hv0 hq herr0

theorem mergeF_dict_touched :
    ∀ b u acc kq sub, alGet b kq = some (PyVal.dict sub) →
      pyContains u kq = Except.ok true → (mergeF b u acc).err = Option.none →
      kq ∈ (mergeF b u acc).touched := by
  intro b u acc
  induction b, u, acc using mergeF.induct with
  | case1 x acc => intro kq sub hget _ _; cases hget
  | case2 k v rest u acc e h =>
    intro kq sub hget hq herr0
    have hsome : (mergeF ((k, v) :: rest) u acc).err = some e := by
      cases v <;> simp [mergeF.eq_2, mergeF.eq_3, h]
    rw [hsome] at herr0
    cases herr0
  | case3 k rest u acc d e hg hc =>
    intro kq sub hget hq herr0
    have hsome : (mergeF ((k, PyVal.dict d) :: rest) u acc).err = some e := by
      simp [mergeF.eq_2, hc, hg]
    rw [hsome] at herr0
    cases herr0
  | case4 k rest u acc d uv hg r e herr hc =>
    rename_i ih
    intro kq sub hget hq herr0
    have herr2 : (mergeF d uv acc).err = some e := herr
    have hsome : (mergeF ((k, PyVal.dict d) :: rest) u acc).err = some e := by
      simp [mergeF.eq_2, hc, hg, herr2]
    rw [hsome] at herr0
    cases herr0
  | case5 k rest u acc d uv hg r herr hc ih =>
    rename_i ih2
    intro kq sub hget hq herr0
    have herr2 : (mergeF d uv acc).err = Option.none := herr
    have heq : mergeF ((k, PyVal.dict d) :: rest) u acc =
        ⟨(k, PyVal.dict (mergeF d uv acc).base) ::
            (mergeF rest u (updAdd (mergeF d uv acc).touched k)).base,
          (mergeF rest u (updAdd (mergeF d uv acc).touched k)).touched,
          (mergeF rest u (updAdd (mergeF d uv acc).touched k)).err⟩ := by
      simp [mergeF.eq_2, hc, hg, herr2]
    by_cases hne : k = kq
    · subst hne
      rw [heq]
      exact mergeF_touched_mono _ _ _ (mem_updAdd _ k)
    · rw [alGet_cons, if_neg hne] at hget
      rw [heq] at herr0 ⊢
      exact ih2 kq sub hget hq herr0
  | case6 k v rest u acc e hg hnd hc =>
    intro kq sub hget hq herr0
    have hsome : (mergeF ((k, v) :: rest) u acc).err = some e := by
      cases v <;> simp [mergeF.eq_2, mergeF.eq_3, hc, hg]
    rw [hsome] at herr0
    cases herr0
  | case7 k v rest u acc uv hg hnd hc ih =>
    intro kq sub hget hq herr0
    have heq : mergeF ((k, v) :: rest) u acc =
        ⟨(k, uv) :: (mergeF rest u (updAdd acc k)).base,
          (mergeF rest u (updAdd acc k)).touched,
          (mergeF rest u (updAdd acc k)).err⟩ := by
      cases v <;> simp [mergeF.eq_2, mergeF.eq_3, hc, hg]
    by_cases hne : k = kq
    · subst hne
      rw [alGet_cons, if_pos rfl] at hget
      injection hget with hvv
      exact absurd hvv (fun hh => hnd sub hh)
    · rw [alGet_cons, if_neg hne] at hget
      rw [heq] at herr0 ⊢
      exact ih kq sub hget hq herr0
  | case8 k v rest u acc mem hc hm ih =>
    intro kq sub hget hq herr0
    have hm2 : mem = false := by
      cases mem
      · rfl
      · exact absurd rfl hm
    subst hm2
    have hne : k ≠ kq := by
      intro hh
      rw [hh, hq] at hc
      cases hc
    have heq : mergeF ((k, v) :: rest) u acc =
        ⟨(k, v) :: (mergeF rest u acc).base,
          (mergeF rest u acc).touched, (mergeF rest u acc).err⟩ := by
      cases v <;> simp [mergeF.eq_2, mergeF.eq_3, hc]
    rw [alGet_cons, if_neg hne] at hget
    rw [heq] at herr0 ⊢
    exact ih kq sub hget hq herr0

theorem toNat_ofNat_valid (n : Nat) (h : Nat.isValidChar n) : (Char.ofNat n).toNat = n := by
  rw [Char.ofNat, dif_pos h]
  rfl

theorem pyLowerChar_idem (c : Char) : pyLowerChar (pyLowerChar c) = pyLowerChar c := by
  unfold pyLowerChar
  by_cases h : 65 ≤ c.toNat ∧ c.toNat ≤ 90
  · rw [if_pos h]
    have hv : (Char.ofNat (c.toNat + 32)).toNat = c.toNat + 32 :=
      toNat_ofNat_valid _ (Or.inl (by omega))
    rw [if_neg (by rw [hv]; omega)]
  · rw [if_neg h, if_neg h]

theorem pyLower_idem (s : String) : pyLower (pyLower s) = pyLower s := by
  show String.mk ((s.data.map pyLowerChar).map pyLowerChar)
      = String.mk (s.data.map pyLowerChar)
  rw [List.map_map]
  simp [Function.comp_def, pyLowerChar_idem]

theorem regGet_regSet_self (reg : Registry) (k : String) (c : MethodCls) :
    regGet (regSet reg k c) k = some c := by
  induction reg with
  | nil => simp [regSet, regGet]
  | cons hd tl ih =>
    obtain ⟨k0, c0⟩ := hd
    by_cases h : k0 = k
    · subst h
      simp [regSet, regGet]
    · simp [regSet, regGet, h, ih]

theorem splitChar_of_not_mem {sep : Char} :
    ∀ {l : List Char}, sep ∉ l → splitChar sep l = [l] := by
  intro l
  induction l with
  | nil => intro _; rfl
  | cons c cs ih =>
    intro h
    have hc : c ≠ sep := fun hh => h (hh ▸ List.mem_cons_self _ _)
    have hcs : sep ∉ cs := fun hh => h (List.mem_cons_of_mem _ hh)
    simp [splitChar, ih hcs, hc]

theorem pySplitDot_of_no_dot {k : String} (h : ('.' : Char) ∉ k.data) :
    pySplitDot k = [k] := by
  unfold pySplitDot
  rw [splitChar_of_not_mem h]
  rfl

theorem unflattenStep_drops_plain_scalar {k : String} {v : PyVal}
    (hk : ('.' : Char) ∉ k.data) (hv : v.isDictB = false) :
    ∀ acc, unflattenStep acc k v = Except.ok acc := by
  intro acc
  have hsplit : pySplitDot k = [k] := pySplitDot_of_no_dot hk
  cases v <;> simp [unflattenStep, hsplit] <;> cases hv

theorem update_ignores_plain_scalar {k : String} {v : PyVal}
    (hk : ('.' : Char) ∉ k.data) (hv : v.isDictB = false) :
    ∀ (t : DRLXConfig) (rest : Dict),
      DRLXConfig.update t ((k, v) :: rest) = DRLXConfig.update t rest := by
  intro t rest
  have hstep : unflatten ((k, v) :: rest) [] = unflatten rest [] := by
    simp [unflatten, unflattenStep_drops_plain_scalar hk hv []]
  unfold DRLXConfig.update
  rw [hstep]

/-! ## Claims -/

/-- C1: the claim says `DRLXConfig.update` never mutates `base` in place and
that after a failed call the original tree is unchanged.  The code violates
this: `to_dict` hands the sub-config `__dict__` mappings to `merge` by
reference and `merge` writes into them, so the base tree is mutated even when
the call then fails.  Here the call fails with the unknown-key `ValueError`
for `"nonexistent"`, yet `sampleTree`'s `train.seed` (originally `0`) has been
overwritten to `7`: the post-state equals the original tree with exactly that
field changed. -/
theorem update_mutates_base_in_place :
    sampleTree.train.seed = PyVal.int 0
    ∧ (DRLXConfig.update sampleTree
        [("train", PyVal.dict [("seed", PyVal.int 7)]),
         ("nonexistent", PyVal.dict [])]).1
      = Except.error (PyErr.valueError
          "parameter nonexistent is not present in the config (typo or a wrong config)")
    ∧ (DRLXConfig.update sampleTree
        [("train", PyVal.dict [("seed", PyVal.int 7)]),
         ("nonexistent", PyVal.dict [])]).2
      = { sampleTree with train := { sampleTree.train with seed := PyVal.int 7 } } :=
  ⟨rfl, rfl, rfl⟩

/-- C2, counterexample: the claim says `update(base, {"nonexistent_key": 1})`
raises the unknown-key `ValidationError`.  It does not: an override entry
whose key has no `"."` and whose value is not a dict is dropped by the
unflattening loop (the unflattened mapping is empty), so the validation loop
sees nothing; the call instead fails later, inside `from_dict`, with the
`TypeError` coming from the broken `@staticmethod` `ConfigClass.from_dict` —
an error that does not name the key. -/
theorem update_unknown_plain_key_not_validated :
    unflatten [("nonexistent_key", PyVal.int 1)] [] = Except.ok []
    ∧ (DRLXConfig.update sampleTree [("nonexistent_key", PyVal.int 1)]).1
      = Except.error (PyErr.typeError staticFromDictMsg) :=
  ⟨rfl, rfl⟩

/-- C2, amended: only override keys that survive unflattening — keys whose
value is a dict, or dotted keys — are validated; for such a key that exists
nowhere in the tree, `update` raises `ValueError` naming the key (for any
base tree whose tracker field is set, so that `to_dict` succeeds). -/
theorem update_unknown_surviving_key_raises (t : DRLXConfig)
    (tr : PerPromptStatTrackerConfig) (h : t.per_prompt_stat_tracker = some tr)
    (dv : Dict) :
    (DRLXConfig.update t [("nonexistent", PyVal.dict dv)]).1
      = Except.error (PyErr.valueError
          "parameter nonexistent is not present in the config (typo or a wrong config)")
    ∧ (DRLXConfig.update t [("nonexistent.key", PyVal.int 1)]).1
      = Except.error (PyErr.valueError
          "parameter nonexistent is not present in the config (typo or a wrong config)") := by
  constructor
  · simp [DRLXConfig.update, DRLXConfig.to_dict, h, unflatten, unflattenStep, alSet,
      mergeF.eq_1, mergeF.eq_2, pyContains, alHas, firstUntouched]
  · have hstep : unflatten [("nonexistent.key", PyVal.int 1)] []
        = Except.ok [("nonexistent", PyVal.dict [("key", PyVal.int 1)])] := rfl
    simp [DRLXConfig.update, DRLXConfig.to_dict, h, hstep,
      mergeF.eq_1, mergeF.eq_2, pyContains, alHas, firstUntouched]

theorem update_unknown_surviving_key_raises_witness :
    (DRLXConfig.update sampleTree [("nonexistent", PyVal.dict [("a", PyVal.int 1)])]).1
      = Except.error (PyErr.valueError
          "parameter nonexistent is not present in the config (typo or a wrong config)")
    ∧ (DRLXConfig.update sampleTree [("nonexistent.key", PyVal.int 1)]).1
      = Except.error (PyErr.valueError
          "parameter nonexistent is not present in the config (typo or a wrong config)") :=
  update_unknown_surviving_key_raises sampleTree
    ⟨PyVal.int 32, PyVal.int 16⟩ rfl [("a", PyVal.int 1)]

/-- C3: the claim says the `per_prompt_stat_tracker` subsection is optional
for both `from_dict` and `to_dict`.  The code contradicts its own
documentation (the field is declared with default `None` and documented
"optional"): `from_dict` fails on the seven-section mapping — it fails with
the staticmethod `TypeError` on every input, and even with that call fixed,
`config["per_prompt_stat_tracker"]` would raise `KeyError` — `to_dict` of a
tree whose tracker is `None` raises `AttributeError` at
`self.per_prompt_stat_tracker.__dict__`, and `update` of such a tree fails
the same way. -/
theorem per_prompt_stat_tracker_not_optional :
    DRLXConfig.from_dict (PyVal.dict sampleRawNoTracker)
      = Except.error (PyErr.typeError staticFromDictMsg)
    ∧ DRLXConfig.to_dict sampleTreeNoTracker
      = Except.error (PyErr.attributeError "NoneType object has no attribute __dict__")
    ∧ (DRLXConfig.update sampleTreeNoTracker []).1
      = Except.error (PyErr.attributeError "NoneType object has no attribute __dict__") :=
  ⟨rfl, rfl, rfl⟩

/-- C4: the claim says `from_dict (to_dict x) = x` for every valid tree.  The
code cannot round-trip anything: `to_dict sampleTree` succeeds (producing
`sampleRaw`), but `from_dict` on that very mapping raises `TypeError`,
because every leaf `X.from_dict(cfg)` call goes through the inherited
`@staticmethod ConfigClass.from_dict(cls, cfg)` whose one-argument call
leaves `cfg` unbound. -/
theorem round_trip_fails :
    DRLXConfig.to_dict sampleTree = Except.ok sampleRaw
    ∧ (DRLXConfig.to_dict sampleTree).bind (fun d => DRLXConfig.from_dict (PyVal.dict d))
      = Except.error (PyErr.typeError staticFromDictMsg) :=
  ⟨rfl, rfl⟩

/-- C5, counterexample: the claim says the unknown-method failure message
names the offending method.  `from_dict` with `method.name = "nonexistent"`
does raise (the bare `Exception` from `get_method`), but with a fixed message
that does not contain `"nonexistent"`. -/
theorem from_dict_unknown_method_fixed_message :
    DRLXConfig.from_dict (PyVal.dict [("method", PyVal.dict [("name", PyVal.str "nonexistent")])])
      = Except.error (PyErr.exception
          "Error: Trying to access a method that has not been registered") :=
  rfl

/-- C5, amended: for every method name that does not resolve to the one
registered entry (`"methodconfig"`), `from_dict` raises the unknown-method
error — a bare `Exception` whose fixed message does not name the method.
The method keyword is evaluated first, so only the `method` section is
needed. -/
theorem from_dict_unknown_method_raises (s : String)
    (h : pyLower s ≠ "methodconfig") :
    DRLXConfig.from_dict (PyVal.dict [("method", PyVal.dict [("name", PyVal.str s)])])
      = Except.error (PyErr.exception
          "Error: Trying to access a method that has not been registered") := by
  have hlow : pyLower (clsDunderName MethodCls.MethodConfigCls) = "methodconfig" := rfl
  simp [DRLXConfig.from_dict, pyGetItem, alGet, get_method, _METHODS,
    register_method_cls, register_class, regSet, regGet, hlow, Ne.symm h,
    Except.bind, bind]

theorem from_dict_unknown_method_raises_witness :
    DRLXConfig.from_dict (PyVal.dict [("method", PyVal.dict [("name", PyVal.str "ddpo")])])
      = Except.error (PyErr.exception
          "Error: Trying to access a method that has not been registered") :=
  from_dict_unknown_method_raises "ddpo" (by decide)

theorem alGet_of_pyGetItem {ud : Dict} {k : String} {uv : PyVal}
    (h : pyGetItem (PyVal.dict ud) k = Except.ok uv) : alGet ud k = some uv := by
  have h2 : (match alGet ud k with
      | some v => (Except.ok v : Except PyErr PyVal)
      | Option.none => Except.error (PyErr.keyError k)) = Except.ok uv := h
  cases hget : alGet ud k <;> rw [hget] at h2
  · cases h2
  · injection h2 with h3
    rw [h3]

/-- C6, counterexample: the claim says keys present only in `update` are not
marked touched.  The `updated` set is shared across recursion levels, so a
nested touched key lands in the same flat set: here the top-level key `"b"`
occurs only in `update` (the base has only `"a"`), yet `"b"` is in the
returned touched set, having been recorded by the nested merge of
`{"b": 1}` with `{"b": 2}`. -/
theorem merge_touched_leaks_nested_keys :
    (mergeF [("a", PyVal.dict [("b", PyVal.int 1)])]
        (PyVal.dict [("a", PyVal.dict [("b", PyVal.int 2)]), ("b", PyVal.int 3)])
        []).touched
      = ["b", "a"]
    ∧ alHas [("a", PyVal.dict [("b", PyVal.int 1)])] "b" = false :=
  ⟨rfl, rfl⟩

/-- C6, amended: `merge` iterates over `base`'s keys — the result has exactly
`base`'s keys, so keys only in `update` are never merged in; a base key
absent from `update` keeps its value; a base key with a non-dict value that
is present in `update` is overwritten with `update`'s value and marked
touched (when no exception aborts the iteration); a base key holding a dict
that is present in `update` recurses and is itself marked touched; and the
`updated` set is threaded through every recursive call, only ever growing —
which is why nested touched keys surface in the flat set. -/
theorem merge_characterization :
    (∀ b u acc, keysOf (mergeF b u acc).base = keysOf b)
    ∧ (∀ b u acc k, alHas b k = false →
        alGet (mergeF b u acc).base k = Option.none)
    ∧ (∀ b (ud : Dict) acc k, alHas ud k = false →
        alGet (mergeF b (PyVal.dict ud) acc).base k = alGet b k)
    ∧ (∀ b (ud : Dict) acc k v0, alGet b k = some v0 → v0.isDictB = false →
        alHas ud k = true → (mergeF b (PyVal.dict ud) acc).err = Option.none →
        alGet (mergeF b (PyVal.dict ud) acc).base k = alGet ud k
          ∧ k ∈ (mergeF b (PyVal.dict ud) acc).touched)
    ∧ (∀ b (ud : Dict) acc k sub, alGet b k = some (PyVal.dict sub) →
        alHas ud k = true → (mergeF b (PyVal.dict ud) acc).err = Option.none →
        k ∈ (mergeF b (PyVal.dict ud) acc).touched)
    ∧ (∀ b u acc, acc ⊆ (mergeF b u acc).touched) := by
  refine ⟨mergeF_keys, mergeF_not_in_base, ?_, ?_, ?_, mergeF_touched_mono⟩
  · intro b ud acc k h
    exact mergeF_untouched_val b _ acc k (by simp [pyContains, h])
  · intro b ud acc k v0 hget hv0 hhas herr
    obtain ⟨uv, hpg, hres, htch⟩ :=
      mergeF_overwrites b _ acc k v0 hget hv0 (by simp [pyContains, hhas]) herr
    refine ⟨?_, htch⟩
    rw [hres, alGet_of_pyGetItem hpg]
  · intro b ud acc k sub hget hhas herr
    exact mergeF_dict_touched b _ acc k sub hget (by simp [pyContains, hhas]) herr

theorem merge_characterization_witness :
    keysOf (mergeF [("a", PyVal.int 1)] (PyVal.dict [("a", PyVal.int 2)]) []).base
      = keysOf [("a", PyVal.int 1)]
    ∧ alGet (mergeF [("a", PyVal.int 1)] (PyVal.dict [("b", PyVal.int 2)]) []).base "b"
      = Option.none
    ∧ alGet (mergeF [("a", PyVal.int 1)] (PyVal.dict [("b", PyVal.int 2)]) []).base "a"
      = alGet [("a", PyVal.int 1)] "a"
    ∧ (alGet (mergeF [("a", PyVal.int 1)] (PyVal.dict [("a", PyVal.int 2)]) []).base "a"
        = alGet [("a", PyVal.int 2)] "a"
      ∧ "a" ∈ (mergeF [("a", PyVal.int 1)] (PyVal.dict [("a", PyVal.int 2)]) []).touched)
    ∧ "a" ∈ (mergeF [("a", PyVal.dict [("x", PyVal.int 1)])]
        (PyVal.dict [("a", PyVal.dict [])]) []).touched
    ∧ ["z"] ⊆ (mergeF [("a", PyVal.int 1)] (PyVal.dict []) ["z"]).touched :=
  ⟨merge_characterization.1 [("a", PyVal.int 1)] (PyVal.dict [("a", PyVal.int 2)]) [],
   merge_characterization.2.1 [("a", PyVal.int 1)] (PyVal.dict [("b", PyVal.int 2)]) [] "b" rfl,
   merge_characterization.2.2.1 [("a", PyVal.int 1)] [("b", PyVal.int 2)] [] "a" rfl,
   merge_characterization.2.2.2.1 [("a", PyVal.int 1)] [("a", PyVal.int 2)] [] "a"
     (PyVal.int 1) rfl rfl rfl rfl,
   merge_characterization.2.2.2.2.1 [("a", PyVal.dict [("x", PyVal.int 1)])]
     [("a", PyVal.dict [])] [] "a" [("x", PyVal.int 1)] rfl rfl rfl,
   merge_characterization.2.2.2.2.2 [("a", PyVal.int 1)] (PyVal.dict []) ["z"]⟩

/-- C7, counterexample: the claim says dotted keys are merged with
directly-nested override keys before merging.  A dict-valued entry instead
*overwrites* whatever earlier dotted entries accumulated under the same name:
with `{"train.seed": 7, "train": {"batch_size": 2}}` the unflattened mapping
has lost `seed`, and the update leaves the tree's `train.seed` at `0` — while
`{"train.seed": 7}` alone does set it to `7`. -/
theorem nested_override_overwrites_dotted :
    unflatten [("train.seed", PyVal.int 7),
               ("train", PyVal.dict [("batch_size", PyVal.int 2)])] []
      = Except.ok [("train", PyVal.dict [("batch_size", PyVal.int 2)])]
    ∧ (DRLXConfig.update sampleTree
        [("train.seed", PyVal.int 7),
         ("train", PyVal.dict [("batch_size", PyVal.int 2)])]).2.train.seed
      = PyVal.int 0
    ∧ (DRLXConfig.update sampleTree [("train.seed", PyVal.int 7)]).2.train.seed
      = PyVal.int 7 :=
  ⟨rfl, rfl, rfl⟩

/-- C7, amended: `update(base, {"train.seed": 7})` is the very same call as
`update(base, {"train": {"seed": 7}})` for every base tree; a dotted key
unflattens segment by segment into nesting with the final segment as leaf;
and a dotted key appearing *after* a directly-nested entry does merge into
it — only the reverse order overwrites (the counterexample). -/
theorem dotted_path_equivalence :
    (∀ t : DRLXConfig, DRLXConfig.update t [("train.seed", PyVal.int 7)]
        = DRLXConfig.update t [("train", PyVal.dict [("seed", PyVal.int 7)])])
    ∧ unflatten [("a.b.c", PyVal.int 5)] []
      = Except.ok [("a", PyVal.dict [("b", PyVal.dict [("c", PyVal.int 5)])])]
    ∧ unflatten [("train", PyVal.dict [("batch_size", PyVal.int 2)]),
                 ("train.seed", PyVal.int 7)] []
      = Except.ok [("train", PyVal.dict [("batch_size", PyVal.int 2),
                                         ("seed", PyVal.int 7)])] :=
  ⟨fun _ => rfl, rfl, rfl⟩

/-- C8: the claim says constructing a `model` section from a mapping that
omits the mandatory `model_path` raises the missing-field `SchemaError`.  The
call does fail — but with the `TypeError` of the one-argument call through
the inherited `@staticmethod from_dict(cls, cfg)`, which fires for *every*
input, including a complete model mapping; the missing-field check in
`cls(**cfg)` is never reached.  At the tree level, `from_dict` on a full
mapping whose model section lacks `model_path` fails with the same unrelated
`TypeError` (raised at the `method` section, before `model` is even read). -/
theorem from_dict_missing_field_wrong_error :
    from_dict_one_arg ModelConfig
        (PyVal.dict [("model_arch_type", PyVal.str "LDMUNet"),
                     ("peft_config", PyVal.dict [])])
      = (Except.error (PyErr.typeError staticFromDictMsg) : Except PyErr ModelConfig)
    ∧ from_dict_one_arg ModelConfig
        (PyVal.dict [("model_path", PyVal.str "CompVis/stable-diffusion-v1-4"),
                     ("model_arch_type", PyVal.str "LDMUNet"),
                     ("peft_config", PyVal.dict [])])
      = (Except.error (PyErr.typeError staticFromDictMsg) : Except PyErr ModelConfig)
    ∧ DRLXConfig.from_dict (PyVal.dict (alSet sampleRaw "model"
        (PyVal.dict [("model_arch_type", PyVal.str "LDMUNet"),
                     ("peft_config", PyVal.dict [])])))
      = Except.error (PyErr.typeError staticFromDictMsg) :=
  ⟨rfl, rfl, rfl⟩

/-- C9: registry resolution is case-insensitive — `get_method` lowercases its
argument before the lookup, and lowering is idempotent, so any name and its
lowercase form resolve identically (here both `"DDPO"` and `"ddpo"` to the
same unknown-method failure, since `DDPOConfig` is never registered); and
registration stores the class under the lowercased explicit name, or under
the class's own `__name__` lowercased when none is given. -/
theorem registry_case_insensitive :
    (∀ s : String, get_method (PyVal.str s) = get_method (PyVal.str (pyLower s)))
    ∧ get_method (PyVal.str "DDPO") = get_method (PyVal.str "ddpo")
    ∧ (∀ (reg : Registry) (n : String) (c : MethodCls),
        regGet (register_method_str reg n c) (pyLower n) = some c)
    ∧ (∀ (reg : Registry) (c : MethodCls),
        regGet (register_method_cls reg c) (pyLower (clsDunderName c)) = some c) := by
  refine ⟨?_, rfl, ?_, ?_⟩
  · intro s
    simp [get_method, pyLower_idem]
  · intro reg n c
    exact regGet_regSet_self reg (pyLower n) c
  · intro reg c
    exact regGet_regSet_self reg (pyLower (clsDunderName c)) c

/-- C10: an override entry whose key contains no `"."` and whose value is not
a mapping is silently discarded by the unflattening loop: the step leaves the
accumulator unchanged, and the whole `update` call — result and post-state of
the base tree alike — is identical to the call without that entry, so the
value is never applied, the key is never validated, and no error is raised on
its account. -/
theorem update_discards_plain_scalar_key (k : String) (v : PyVal)
    (hk : ('.' : Char) ∉ k.data) (hv : v.isDictB = false) :
    (∀ acc, unflattenStep acc k v = Except.ok acc)
    ∧ (∀ (t : DRLXConfig) (rest : Dict),
        DRLXConfig.update t ((k, v) :: rest) = DRLXConfig.update t rest) :=
  ⟨unflattenStep_drops_plain_scalar hk hv, update_ignores_plain_scalar hk hv⟩

theorem update_discards_plain_scalar_key_witness :
    unflattenStep [] "seed" (PyVal.int 7) = Except.ok []
    ∧ DRLXConfig.update sampleTree [("seed", PyVal.int 7)]
      = DRLXConfig.update sampleTree [] :=
  ⟨(update_discards_plain_scalar_key "seed" (PyVal.int 7) (by decide) rfl).1 [],
   (update_discards_plain_scalar_key "seed" (PyVal.int 7) (by decide) rfl).2 sampleTree []⟩
